import Mathlib

/-!
Verification of the protein-structure construction-and-interchange subsystem:
the residue graph store (`useProteinStore.ts`), the snap-on-drag-release logic
(`ResidueMesh.tsx`), the search workflow and structure fetcher
(`proteinService.ts`, `StructureSearch.tsx`), and the structure codec
(modelled from the specification, since `pdbExporter.ts` is not among the
repository's files).

Coordinates are modelled over an abstract scalar type: the rational numbers
for the store, the codec and the service (all of whose arithmetic is exact),
and the real numbers for the snap geometry, whose distance computations use
square roots.
-/

namespace Protein

/-- Three coordinate components, as a THREE.js `Vector3` / position triple. -/
structure V3 (α : Type) where
  x : α
  y : α
  z : α
deriving DecidableEq

/-- Quaternion components `(x, y, z, w)` as stored in `rotation`. -/
structure V4 (α : Type) where
  x : α
  y : α
  z : α
  w : α
deriving DecidableEq

/-- Residue record of `useProteinStore.ts`.  The generated id string
`residue-<Date.now()>-<idCounter>` is injective in the strictly increasing
module counter, so ids are modelled by the counter value that produced them. -/
structure Residue (α : Type) where
  id : ℕ
  type : String
  position : V3 α
  rotation : V4 α
  connectedTo : Option ℕ
deriving DecidableEq

/-- Store state of `useProteinStore.ts`: the residue list, the selection, and
the module-level `idCounter`. -/
structure ProteinState (α : Type) where
  residues : List (Residue α)
  selectedId : Option ℕ
  counter : ℕ
deriving DecidableEq

/-- The store before any action has run: no residues, no selection. -/
def initialState (α : Type) : ProteinState α := ⟨[], none, 0⟩

/-- The fresh id produced by `generateId` (the incremented counter). -/
def generateId (counter : ℕ) : ℕ := counter + 1

/-- Action `addResidue`: appends a residue with a fresh id, the caller's type
and position, identity rotation and no bond; returns the new id. -/
def addResidue [Zero α] [One α] (ty : String) (pos : V3 α) (s : ProteinState α) :
    ℕ × ProteinState α :=
  let id := generateId s.counter
  (id, { s with
          residues := s.residues ++ [⟨id, ty, pos, ⟨0, 0, 0, 1⟩, none⟩]
          counter := id })

/-- A `Partial<Omit<Residue, 'id'>>` argument to `updateResidue`: each field is
present or absent; a present `connectedTo` carries `null` or an id. -/
structure ResidueProps (α : Type) where
  type? : Option String
  position? : Option (V3 α)
  rotation? : Option (V4 α)
  connectedTo? : Option (Option ℕ)
deriving DecidableEq

/-- Spreading `{ ...r, ...props }`: present fields override the residue's. -/
def applyProps (props : ResidueProps α) (r : Residue α) : Residue α :=
  { r with
    type := props.type?.getD r.type
    position := props.position?.getD r.position
    rotation := props.rotation?.getD r.rotation
    connectedTo := props.connectedTo?.getD r.connectedTo }

/-- Action `updateResidue`: merges the given props into every residue whose id
matches (a no-op when none does). -/
def updateResidue (id : ℕ) (props : ResidueProps α) (s : ProteinState α) :
    ProteinState α :=
  { s with residues := s.residues.map fun r =>
      if r.id = id then applyProps props r else r }

/-- Action `removeResidue`: filters the residue out, nulls every
`connectedTo` that pointed at it, and clears a selection that targeted it. -/
def removeResidue (id : ℕ) (s : ProteinState α) : ProteinState α :=
  { s with
    residues := (s.residues.filter fun r => r.id ≠ id).map fun r =>
      { r with connectedTo := if r.connectedTo = some id then none else r.connectedTo }
    selectedId := if s.selectedId = some id then none else s.selectedId }

/-- Action `connectResidues`: sets `connectedTo := idB` on every residue whose
id is `idA`; no existence check on either id. -/
def connectResidues (idA idB : ℕ) (s : ProteinState α) : ProteinState α :=
  { s with residues := s.residues.map fun r =>
      if r.id = idA then { r with connectedTo := some idB } else r }

/-- Action `selectResidue`. -/
def selectResidue (id : Option ℕ) (s : ProteinState α) : ProteinState α :=
  { s with selectedId := id }

/-- Action `clearAll`. -/
def clearAll (s : ProteinState α) : ProteinState α :=
  { s with residues := [], selectedId := none }

/-- Action `setResidues`: wholesale replacement, clearing the selection. -/
def setResidues (rs : List (Residue α)) (s : ProteinState α) : ProteinState α :=
  { s with residues := rs, selectedId := none }

/-- The ids currently present in the store, in insertion order. -/
def idList (s : ProteinState α) : List ℕ := s.residues.map Residue.id

/-! ### Structure codec

`pdbExporter.ts` is not among the repository's files; only its callers are.
The codec is therefore modelled from the specification (spec sections 4.3
and 6), and claims that depend on it are settled against this model. -/

/-- The `code` fields of the `AMINO_ACIDS` table in
`src/src/types/project.ts`, in table order: the 20 canonical three-letter
amino-acid codes the data model uses as residue types. -/
def AMINO_CODES : List String :=
  ["Gly", "Ala", "Val", "Leu", "Ile", "Ser", "Thr", "Cys", "Met", "Asp",
   "Glu", "Lys", "Arg", "His", "Asn", "Gln", "Pro", "Phe", "Tyr", "Trp"]

/-- Modelled from the spec: one fixed-column coordinate record of the
interchange format. The text is abstracted as the fields its fixed columns
encode (serial number, residue name, the three coordinates as written at
3-decimal precision); the column rendering is injective on these fields, and
the constant fields (atom label, chain id, occupancy, temperature factor,
element symbol) carry no information. -/
structure AtomRecord where
  serial : ℕ
  resName : String
  x : ℚ
  y : ℚ
  z : ℚ
deriving DecidableEq

/-- Modelled from the spec: the exported text, abstracted as its coordinate
records in order (the terminating END record is implicit). -/
structure PDBText where
  atoms : List AtomRecord
deriving DecidableEq

/-- Return shape of `exportToPDB` as consumed by its callers. -/
structure ExportResult where
  pdbString : PDBText
  isValid : Bool
  warnings : List String
deriving DecidableEq

/-- The value the 3-decimal fixed columns encode for a coordinate: the
coordinate rounded to the nearest thousandth. -/
def fmt3 (q : ℚ) : ℚ := (round (q * 1000) : ℤ) / 1000

/-- One coordinate record per residue, in list order, with 1-based serials. -/
def atomsFrom (serial : ℕ) : List (Residue ℚ) → List AtomRecord
  | [] => []
  | r :: rest =>
    ⟨serial, r.type, fmt3 r.position.x, fmt3 r.position.y, fmt3 r.position.z⟩ ::
      atomsFrom (serial + 1) rest

/-- Modelled from the spec: `exportToPDB`. Emits one record per residue in
list order and never throws; `isValid` is false with a warning for an empty
input. Coordinates are modelled in ℚ, where every value is finite, so the
spec's non-finite-coordinate warning branch cannot fire in the model. -/
def exportToPDB (rs : List (Residue ℚ)) : ExportResult :=
  { pdbString := ⟨atomsFrom 1 rs⟩
    isValid := !rs.isEmpty
    warnings := if rs.isEmpty then ["No residues to export"] else [] }

/-- Modelled from the spec: the deterministic policy this model fixes for a
residue name the codec does not recognize (left open by the spec): a name in
the `AMINO_ACIDS` code table is kept as written, any other is mapped to the
fallback code "Gly". -/
def importType (resName : String) : String :=
  if resName ∈ AMINO_CODES then resName else "Gly"

/-- Fresh residues for the parsed records, ids drawn from the module counter. -/
def residuesFrom (counter : ℕ) : List AtomRecord → List (Residue ℚ)
  | [] => []
  | a :: rest =>
    ⟨generateId counter, importType a.resName, ⟨a.x, a.y, a.z⟩, ⟨0, 0, 0, 1⟩, none⟩ ::
      residuesFrom (generateId counter) rest

/-- Modelled from the spec: `parsePDBToResidues`. Scans the coordinate
records and builds fresh residues with newly generated ids (the same module
counter as the store), identity rotation and no bond; bond information is
never inferred. -/
def parsePDBToResidues (t : PDBText) (counter : ℕ) : List (Residue ℚ) :=
  residuesFrom counter t.atoms

/-! ### Search workflow and structure fetcher (`proteinService.ts`)

The network is modelled as an environment holding the responses the remote
service would return; the function consumes them in order and also reports
how many codec-export, ticket and status-poll requests it performed. -/

/-- Normalized match record (`FoldseekResult` in `proteinService.ts`). -/
structure FoldseekResult where
  target : String
  score : ℚ
  tname : String
  qlen : ℕ
  tlen : ℕ
deriving DecidableEq

/-- The error taxonomy of the spec, with the thrown message at each site. -/
inductive SearchError where
  | validation (msg : String)
  | transport (msg : String)
  | remote (msg : String)
  | emptyResult (msg : String)
deriving DecidableEq

instance {ε α : Type} [DecidableEq ε] [DecidableEq α] : DecidableEq (Except ε α) :=
  fun x y =>
    match x, y with
    | .ok a, .ok b => decidable_of_iff (a = b) ⟨fun h => h ▸ rfl, fun h => by injection h⟩
    | .error a, .error b =>
      decidable_of_iff (a = b) ⟨fun h => h ▸ rfl, fun h => by injection h⟩
    | .ok _, .error _ => isFalse fun h => Except.noConfusion h
    | .error _, .ok _ => isFalse fun h => Except.noConfusion h

/-- One alignment entry of the remote result payload, with the fields the
parser reads. -/
structure Alignment where
  target : String
  score : ℚ
  tname : String
  qlen : ℕ
  tlen : ℕ
deriving DecidableEq

/-- One per-database entry of the result payload; `alignments` may be absent. -/
structure DbHits where
  alignments : Option (List Alignment)
deriving DecidableEq

/-- One status-poll response: the `status` string, the `error` field, and
the flattened `result.results` databases when present. -/
structure StatusResponse where
  status : String
  error : Option String
  result : Option (List DbHits)
deriving DecidableEq

/-- The ticket-creation response: HTTP success flag and status, and the `id`
field of the JSON body (absent or empty strings are falsy in the source). -/
structure TicketResponse where
  ok : Bool
  statusCode : ℕ
  id : Option String
deriving DecidableEq

/-- The remote service as seen by one search call: the ticket response and
the successive status-poll responses. -/
structure SearchEnv where
  ticket : TicketResponse
  polls : List StatusResponse
deriving DecidableEq

/-- How many times the search invoked the codec export, the ticket endpoint
and the status endpoint. -/
structure SearchLog where
  exportCalls : ℕ
  ticketCalls : ℕ
  pollCalls : ℕ
deriving DecidableEq

/-- Truthiness of the optional `ticketData.id`: absent and `""` are falsy. -/
def strTruthy : Option String → Bool
  | none => false
  | some s => !(s == "")

/-- The source's `o || dflt` on an optional string field. -/
def strOr (o : Option String) (dflt : String) : String :=
  match o with
  | some s => if s = "" then dflt else s
  | none => dflt

/-- The source's `target.split('_')[0]`: the prefix before the first
underscore (the whole string when there is none, empty for an empty input). -/
def splitHead (s : String) : String := ⟨s.data.takeWhile fun c => c ≠ '_'⟩

/-- One flattened record: `target` truncated at the first underscore with a
falsy fallback to the full string, and `|| 0` / `|| 'Unknown'` defaults on
the remaining fields. -/
def normalizeAlignment (a : Alignment) : FoldseekResult :=
  { target := if splitHead a.target = "" then a.target else splitHead a.target
    score := if a.score = 0 then 0 else a.score
    tname := if a.tname = "" then "Unknown" else a.tname
    qlen := if a.qlen = 0 then 0 else a.qlen
    tlen := if a.tlen = 0 then 0 else a.tlen }

/-- Step C of the workflow: walk the per-database, per-alignment payload,
taking at most the first 10 alignments of each database, in order. -/
def parseResults : List DbHits → List FoldseekResult
  | [] => []
  | db :: rest =>
    (match db.alignments with
     | some as => (as.take 10).map normalizeAlignment
     | none => []) ++ parseResults rest

/-- Step B of the workflow: consume status responses until a terminal one,
returning the terminal outcome and the number of polls made. `none` models
the loop running out of responses without reaching a terminal status (the
source would keep polling forever). -/
def pollLoop : List StatusResponse → Option (Except SearchError StatusResponse) × ℕ
  | [] => (none, 0)
  | resp :: rest =>
    if resp.status = "COMPLETE" then (some (Except.ok resp), 1)
    else if resp.status = "ERROR" then
      (some (Except.error (SearchError.remote
        ("Search failed: " ++ strOr resp.error "Unknown error"))), 1)
    else
      let out := pollLoop rest
      (out.1, out.2 + 1)

/-- The full `searchFoldseek` workflow of `proteinService.ts`: residue-count
check, codec export and validity check, ticket submission, poll loop, result
parsing. Returns the outcome (`none` = the poll loop never terminated) and
the request log. -/
def searchFoldseek (rs : List (Residue ℚ)) (env : SearchEnv) :
    Option (Except SearchError (List FoldseekResult)) × SearchLog :=
  if rs.length < 3 then
    (some (Except.error (SearchError.validation
      "Please add at least 3 residues to search")), ⟨0, 0, 0⟩)
  else
    let ex := exportToPDB rs
    if ex.isValid = false then
      (some (Except.error (SearchError.validation
        ("Failed to export structure: " ++ String.intercalate ", " ex.warnings))),
       ⟨1, 0, 0⟩)
    else if env.ticket.ok = false then
      (some (Except.error (SearchError.transport
        ("Foldseek API error: " ++ toString env.ticket.statusCode))), ⟨1, 1, 0⟩)
    else if strTruthy env.ticket.id = false then
      (some (Except.error (SearchError.transport
        "No ticket ID received from Foldseek")), ⟨1, 1, 0⟩)
    else
      match pollLoop env.polls with
      | (none, n) => (none, ⟨1, 1, n⟩)
      | (some (Except.error e), n) => (some (Except.error e), ⟨1, 1, n⟩)
      | (some (Except.ok resp), n) =>
        match resp.result with
        | some dbs =>
          let out := parseResults dbs
          if out.length = 0 then
            (some (Except.error (SearchError.emptyResult
              "No similar structures found")), ⟨1, 1, n⟩)
          else (some (Except.ok out), ⟨1, 1, n⟩)
        | none =>
          (some (Except.error (SearchError.remote
            "No results returned from search")), ⟨1, 1, n⟩)

/-- Error taxonomy of the structure fetcher. -/
inductive FetchError where
  | transport (msg : String)
  | parse (msg : String)
deriving DecidableEq

/-- The repository download as seen by one fetch call: HTTP success flag and
status, and the structure text of the body. -/
structure FetchResponse where
  ok : Bool
  statusCode : ℕ
  body : PDBText
deriving DecidableEq

/-- Per-axis mean subtraction of `fetchPDBStructure`: the average of each
coordinate axis is computed across all residues and subtracted from every
position. -/
def recenter (rs : List (Residue ℚ)) : List (Residue ℚ) :=
  let n : ℚ := rs.length
  let avgX := (rs.map fun r => r.position.x).sum / n
  let avgY := (rs.map fun r => r.position.y).sum / n
  let avgZ := (rs.map fun r => r.position.z).sum / n
  rs.map fun r =>
    { r with position := ⟨r.position.x - avgX, r.position.y - avgY, r.position.z - avgZ⟩ }

/-- The `fetchPDBStructure` workflow of `proteinService.ts`: HTTP check,
parse via the codec import, zero-residue check, recentering. -/
def fetchPDBStructure (resp : FetchResponse) (counter : ℕ) :
    Except FetchError (List (Residue ℚ)) :=
  if resp.ok = false then
    Except.error (FetchError.transport ("Failed to fetch PDB: " ++ toString resp.statusCode))
  else
    let newResidues := parsePDBToResidues resp.body counter
    if newResidues.length = 0 then
      Except.error (FetchError.parse "No valid residues found in PDB file")
    else
      Except.ok (recenter newResidues)

/-! ### Snap-on-drag-release (`ResidueMesh.tsx`)

Positions here are real numbers: the distance and normalization computations
of the source (`THREE.Vector3.distanceTo` / `.normalize`) take square roots. -/

section Snap

open scoped Classical

/-- Peptide bond length used by the snap (`BOND_DISTANCE` in the source). -/
noncomputable def BOND_DISTANCE : ℝ := 3.8

/-- Snap radius (`SNAP_THRESHOLD` in the source). -/
noncomputable def SNAP_THRESHOLD : ℝ := 5.0

/-- Componentwise difference of position vectors. -/
def vsub (a b : V3 ℝ) : V3 ℝ := ⟨a.x - b.x, a.y - b.y, a.z - b.z⟩

/-- Componentwise sum of position vectors. -/
def vadd (a b : V3 ℝ) : V3 ℝ := ⟨a.x + b.x, a.y + b.y, a.z + b.z⟩

/-- Scalar multiple of a position vector. -/
def vsmul (c : ℝ) (a : V3 ℝ) : V3 ℝ := ⟨c * a.x, c * a.y, c * a.z⟩

/-- THREE `Vector3.length`. -/
noncomputable def vlen (a : V3 ℝ) : ℝ := Real.sqrt (a.x ^ 2 + a.y ^ 2 + a.z ^ 2)

/-- THREE `Vector3.distanceTo`. -/
noncomputable def dist3 (a b : V3 ℝ) : ℝ := vlen (vsub a b)

/-- THREE `Vector3.normalize`: `divideScalar(length || 1)` - the vector is
divided by its length, or left unchanged (divided by 1) when the length is 0. -/
noncomputable def vnormalize (a : V3 ℝ) : V3 ℝ :=
  vsmul (1 / (if vlen a = 0 then 1 else vlen a)) a

/-- A residue the loop considers for snapping: not the dragged residue itself,
and not one whose `connectedTo` already points at the dragged residue. -/
def IsCand (draggedId : ℕ) (r : Residue ℝ) : Prop :=
  r.id ≠ draggedId ∧ r.connectedTo ≠ some draggedId

/-- The source's update condition `distance < SNAP_THRESHOLD && distance <
closestDistance`: with the accumulator still at `(null, Infinity)` the second
conjunct is vacuous. -/
def snapKeep (d : ℝ) : Option (Residue ℝ × ℝ) → Prop
  | none => d < SNAP_THRESHOLD
  | some x => d < SNAP_THRESHOLD ∧ d < x.2

/-- The source's search loop over the residue list: the accumulator is the
current `(closestResidue, closestDistance)` pair, `none` standing for the
initial `(null, Infinity)`; a candidate strictly within the threshold and
strictly closer than the accumulator replaces it. -/
noncomputable def snapLoop (draggedId : ℕ) (p : V3 ℝ) :
    List (Residue ℝ) → Option (Residue ℝ × ℝ) → Option (Residue ℝ × ℝ)
  | [], best => best
  | other :: rest, best =>
    if other.id = draggedId then snapLoop draggedId p rest best
    else if other.connectedTo = some draggedId then snapLoop draggedId p rest best
    else if snapKeep (dist3 p other.position) best then
      snapLoop draggedId p rest (some (other, dist3 p other.position))
    else snapLoop draggedId p rest best

/-- The bonding neighbor the drag-release selects, if any. -/
noncomputable def snapNeighbor (draggedId : ℕ) (p : V3 ℝ) (rs : List (Residue ℝ)) :
    Option (Residue ℝ) :=
  (snapLoop draggedId p rs none).map Prod.fst

/-- The snapped position: `otherPos + normalize(p - otherPos) * BOND_DISTANCE`. -/
noncomputable def snappedPos (p neighborPos : V3 ℝ) : V3 ℝ :=
  vadd neighborPos (vsmul BOND_DISTANCE (vnormalize (vsub p neighborPos)))

/-- The whole drag-release handler: the position is first updated to the drop
point `p`; then, if a neighbor is selected among the residues of the render
snapshot, the position is snapped and `connectResidues(neighbor.id, dragged.id)`
is called. -/
noncomputable def dragRelease (draggedId : ℕ) (p : V3 ℝ) (s : ProteinState ℝ) :
    ProteinState ℝ :=
  let s1 := updateResidue draggedId ⟨none, some p, none, none⟩ s
  match snapNeighbor draggedId p s.residues with
  | none => s1
  | some n =>
    connectResidues n.id draggedId
      (updateResidue draggedId ⟨none, some (snappedPos p n.position), none, none⟩ s1)

end Snap

/-! ### The graph invariant and reachable states -/

/-- The data-model invariant (spec section 3): ids are pairwise distinct;
every set `connectedTo` references an existing id other than the residue's
own; and every id was produced by the generator, hence is bounded by the
module counter. -/
def Inv (s : ProteinState α) : Prop :=
  (idList s).Nodup ∧
  (∀ r ∈ s.residues, ∀ t, r.connectedTo = some t → t ≠ r.id ∧ t ∈ idList s) ∧
  (∀ r ∈ s.residues, r.id ≤ s.counter)

/-- One store action, with the caller obligations the spec states: `connect`
is called with an existing target distinct from the source (spec section 4.1:
the caller must ensure `toId` exists), `update` only writes `connectedTo`
values that are null or existing non-self ids, and `setResidues` only installs
lists that themselves satisfy the invariant with generator-produced ids. -/
inductive Step : ProteinState ℚ → ProteinState ℚ → Prop where
  | add (ty : String) (pos : V3 ℚ) (s : ProteinState ℚ) :
      Step s (addResidue ty pos s).2
  | update (id : ℕ) (props : ResidueProps ℚ) (s : ProteinState ℚ)
      (h : ∀ t, props.connectedTo? = some (some t) → t ≠ id ∧ t ∈ idList s) :
      Step s (updateResidue id props s)
  | remove (id : ℕ) (s : ProteinState ℚ) : Step s (removeResidue id s)
  | connect (idA idB : ℕ) (s : ProteinState ℚ)
      (h1 : idB ∈ idList s) (h2 : idB ≠ idA) :
      Step s (connectResidues idA idB s)
  | select (o : Option ℕ) (s : ProteinState ℚ) : Step s (selectResidue o s)
  | clear (s : ProteinState ℚ) : Step s (clearAll s)
  | replaceAll (rs : List (Residue ℚ)) (s : ProteinState ℚ)
      (h1 : (rs.map Residue.id).Nodup)
      (h2 : ∀ r ∈ rs, ∀ t, r.connectedTo = some t → t ≠ r.id ∧ t ∈ rs.map Residue.id)
      (h3 : ∀ r ∈ rs, r.id ≤ s.counter) :
      Step s (setResidues rs s)

/-- States reachable from the empty store by guarded actions. -/
inductive Reachable : ProteinState ℚ → Prop where
  | init : Reachable (initialState ℚ)
  | step {s s' : ProteinState ℚ} : Reachable s → Step s s' → Reachable s'

/-! ### Concrete fixtures used by witnesses and counterexamples -/

/-- A rational-coordinate residue. -/
def qr1 : Residue ℚ := ⟨1, "Ala", ⟨0, 0, 0⟩, ⟨0, 0, 0, 1⟩, none⟩

/-- A second rational-coordinate residue, bonded to the first. -/
def qr2 : Residue ℚ := ⟨2, "Gly", ⟨3, 0, 0⟩, ⟨0, 0, 0, 1⟩, some 1⟩

/-- A third rational-coordinate residue. -/
def qr3 : Residue ℚ := ⟨3, "Ser", ⟨6, 0, 0⟩, ⟨0, 0, 0, 1⟩, none⟩

/-- A three-residue structure (the minimum the search accepts). -/
def qrs3 : List (Residue ℚ) := [qr1, qr2, qr3]

/-- A store state holding `qrs3` with the second residue selected. -/
def qState : ProteinState ℚ := ⟨qrs3, some 2, 3⟩

/-- An alignment whose `tname` is the empty string (a falsy value in the
source's `|| 'Unknown'` default). -/
def alEmptyName : Alignment := ⟨"1abc_A", 42, "", 3, 120⟩

/-- An environment whose search completes after one pending poll with a
single database holding the single alignment `alEmptyName`. -/
def envComplete : SearchEnv :=
  ⟨⟨true, 200, some "tkt123"⟩,
   [⟨"PENDING", none, none⟩, ⟨"COMPLETE", none, some [⟨some [alEmptyName]⟩]⟩]⟩

/-- An environment whose ticket submission fails with HTTP 500. -/
def env500 : SearchEnv := ⟨⟨false, 500, none⟩, [⟨"COMPLETE", none, some []⟩]⟩

/-- An environment whose ticket submission succeeds but carries no id. -/
def envNoId : SearchEnv := ⟨⟨true, 200, none⟩, [⟨"COMPLETE", none, some []⟩]⟩

/-- A real-coordinate residue at the origin. -/
def resA : Residue ℝ := ⟨1, "Ala", ⟨0, 0, 0⟩, ⟨0, 0, 0, 1⟩, none⟩

/-- A second real-coordinate residue, far from the first. -/
def resB : Residue ℝ := ⟨2, "Gly", ⟨10, 0, 0⟩, ⟨0, 0, 0, 1⟩, none⟩

/-- A real-coordinate store state holding `resA` and `resB`. -/
def stAB : ProteinState ℝ := ⟨[resA, resB], none, 2⟩

/-- A drop point 3 angstroms from `resA` and 7 from `resB`. -/
def p0 : V3 ℝ := ⟨3, 0, 0⟩

/-- A drop point exactly on `resA`'s position (the degenerate snap case). -/
def pC : V3 ℝ := ⟨0, 0, 0⟩

/-- A real-coordinate store state holding only `resB` (no snap candidates
when `resB` itself is dragged). -/
def stSolo : ProteinState ℝ := ⟨[resB], none, 2⟩

/-! ### General lemmas about the store actions -/

theorem map_noop {β : Type} (l : List β) (f : β → β) (h : ∀ x ∈ l, f x = x) :
    l.map f = l := by
  induction l with
  | nil => rfl
  | cons a t ih =>
    simp only [List.map_cons, h a (by simp)]
    rw [ih fun x hx => h x (by simp [hx])]

theorem applyProps_id {α : Type} (props : ResidueProps α) (r : Residue α) :
    (applyProps props r).id = r.id := rfl

/-- Claim C9 core, update branch: an absent id makes `updateResidue` the
identity on the whole state. -/
theorem updateResidue_absent {α : Type} (s : ProteinState α) (id : ℕ)
    (props : ResidueProps α) (h : ∀ r ∈ s.residues, r.id ≠ id) :
    updateResidue id props s = s := by
  obtain ⟨rs, sel, c⟩ := s
  simp only [updateResidue]
  congr 1
  exact map_noop _ _ fun r hr => by simp [h r hr]

/-- Claim C9 core, connect branch: an absent `fromId` makes `connectResidues`
the identity on the whole state. -/
theorem connectResidues_absent {α : Type} (s : ProteinState α) (idA idB : ℕ)
    (h : ∀ r ∈ s.residues, r.id ≠ idA) :
    connectResidues idA idB s = s := by
  obtain ⟨rs, sel, c⟩ := s
  simp only [connectResidues]
  congr 1
  exact map_noop _ _ fun r hr => by simp [h r hr]

/-- C9: every store operation is a total function of the state (by
construction of this embedding, matching the throw-free source); in
particular `updateResidue` with an id not present in the graph leaves the
entire state unchanged, and so does `connectResidues` with an absent
`fromId`. -/
theorem c9_total_noop {α : Type} (s : ProteinState α) (id idB : ℕ)
    (props : ResidueProps α) (h : ∀ r ∈ s.residues, r.id ≠ id) :
    updateResidue id props s = s ∧ connectResidues id idB s = s :=
  ⟨updateResidue_absent s id props h, connectResidues_absent s id idB h⟩

/-- Witness for C9 at a concrete state: id 7 is absent from `qState`. -/
theorem c9_total_noop_witness :
    updateResidue 7 ⟨some "Cys", none, none, some (some 1)⟩ qState = qState ∧
    connectResidues 7 1 qState = qState :=
  c9_total_noop qState 7 1 ⟨some "Cys", none, none, some (some 1)⟩ (by decide)

/-- C4: `removeResidue id` keeps exactly the residues with a different id,
nulling every `connectedTo` that pointed at `id`; afterwards no residue
carries or references the removed id, a pointing residue survives with its
reference nulled, a non-pointing residue survives unchanged, and the
selection is cleared exactly when it targeted the removed id. -/
theorem c4_remove_spec {α : Type} (s : ProteinState α) (id : ℕ) :
    (removeResidue id s).residues =
      (s.residues.filter fun r => r.id ≠ id).map (fun r =>
        { r with connectedTo := if r.connectedTo = some id then none else r.connectedTo }) ∧
    (∀ r ∈ (removeResidue id s).residues, r.id ≠ id ∧ r.connectedTo ≠ some id) ∧
    (∀ r ∈ s.residues, r.id ≠ id → r.connectedTo = some id →
      { r with connectedTo := (none : Option ℕ) } ∈ (removeResidue id s).residues) ∧
    (∀ r ∈ s.residues, r.id ≠ id → r.connectedTo ≠ some id →
      r ∈ (removeResidue id s).residues) ∧
    (removeResidue id s).selectedId =
      (if s.selectedId = some id then none else s.selectedId) := by
  refine ⟨rfl, ?_, ?_, ?_, rfl⟩
  · intro r hr
    simp only [removeResidue, List.mem_map, List.mem_filter] at hr
    obtain ⟨r0, ⟨_, hid⟩, hr0⟩ := hr
    subst hr0
    refine ⟨by simpa using hid, ?_⟩
    by_cases hc : r0.connectedTo = some id <;> simp [hc]
  · intro r hr hid hc
    simp only [removeResidue, List.mem_map, List.mem_filter]
    exact ⟨r, ⟨hr, by simpa using hid⟩, by simp [hc]⟩
  · intro r hr hid hc
    simp only [removeResidue, List.mem_map, List.mem_filter]
    exact ⟨r, ⟨hr, by simpa using hid⟩, by simp [hc]⟩

/-- Witness for C4 at a concrete state: removing residue 1 from `qState`
drops it, nulls residue 2's reference to it, keeps residue 3 unchanged, and
leaves the selection (which targeted residue 2) alone. -/
theorem c4_remove_spec_witness :
    (removeResidue 1 qState).residues =
      [{ qr2 with connectedTo := none }, qr3] ∧
    ({ qr2 with connectedTo := (none : Option ℕ) } ∈ (removeResidue 1 qState).residues) ∧
    (qr3 ∈ (removeResidue 1 qState).residues) ∧
    (removeResidue 1 qState).selectedId = some 2 := by
  have h := c4_remove_spec qState 1
  refine ⟨by decide, ?_, ?_, by decide⟩
  · exact h.2.2.1 qr2 (by decide) (by decide) (by decide)
  · exact h.2.2.2.1 qr3 (by decide) (by decide) (by decide)

/-! ### Lemmas about the search workflow -/

/-- Every error the poll loop itself produces is a remote error. -/
theorem pollLoop_error_remote (ps : List StatusResponse) (e : SearchError) (n : ℕ)
    (h : pollLoop ps = (some (Except.error e), n)) : ∃ msg, e = SearchError.remote msg := by
  induction ps generalizing n with
  | nil => simp [pollLoop] at h
  | cons resp rest ih =>
    simp only [pollLoop] at h
    split_ifs at h with h1 h2
    · simp at h
    · simp only [Prod.mk.injEq, Option.some.injEq] at h
      exact ⟨_, (by simpa using h.1.symm)⟩
    · rcases hp : pollLoop rest with ⟨o, m⟩
      rw [hp] at h
      simp only [Prod.mk.injEq] at h
      exact ih m (hp.trans (by rw [h.1]))

/-- C10: with fewer than 3 residues the search rejects with exactly the
message "Please add at least 3 residues to search", before invoking the
codec export and before any network request; with 3 or more residues the
export and the ticket request are always performed and no validation error
of any message can occur - the minimum residue count for search is
exactly 3. -/
theorem c10_min_three (rs : List (Residue ℚ)) (env : SearchEnv) :
    (rs.length < 3 →
      searchFoldseek rs env =
        (some (Except.error (SearchError.validation
          "Please add at least 3 residues to search")), ⟨0, 0, 0⟩)) ∧
    (3 ≤ rs.length →
      (searchFoldseek rs env).2.exportCalls = 1 ∧
      (searchFoldseek rs env).2.ticketCalls = 1 ∧
      ∀ msg, (searchFoldseek rs env).1 ≠
        some (Except.error (SearchError.validation msg))) := by
  constructor
  · intro h
    simp [searchFoldseek, h]
  · intro h3
    have hlt : ¬ rs.length < 3 := not_lt.mpr h3
    have hne : rs.isEmpty = false := by
      cases rs with
      | nil => simp at h3
      | cons a t => rfl
    have hval : ¬ ((exportToPDB rs).isValid = false) := by
      simp [exportToPDB, hne]
    simp only [searchFoldseek, if_neg hlt, if_neg hval]
    by_cases hok : env.ticket.ok = false
    · simp [hok]
    · simp only [if_neg hok]
      by_cases hid : strTruthy env.ticket.id = false
      · simp [hid]
      · simp only [if_neg hid]
        rcases hp : pollLoop env.polls with ⟨o, n⟩
        cases o with
        | none => simp
        | some e =>
          cases e with
          | error e =>
            obtain ⟨msg, rfl⟩ := pollLoop_error_remote _ _ _ hp
            simp
          | ok resp =>
            cases hr : resp.result with
            | none => simp [hr]
            | some dbs =>
              by_cases hlen : parseResults dbs = [] <;> simp [hr, hlen]

/-- Witness for C10: a 2-residue list is rejected with the exact message and
an untouched request log, and the 3-residue list `qrs3` reaches the network
(here the failing `env500` ticket) with the export performed. -/
theorem c10_min_three_witness :
    searchFoldseek [qr1, qr2] env500 =
      (some (Except.error (SearchError.validation
        "Please add at least 3 residues to search")), ⟨0, 0, 0⟩) ∧
    (searchFoldseek qrs3 env500).2.exportCalls = 1 ∧
    (searchFoldseek qrs3 env500).1 ≠
      some (Except.error (SearchError.validation "Please add at least 3 residues to search")) :=
  ⟨(c10_min_three [qr1, qr2] env500).1 (by decide),
   ((c10_min_three qrs3 env500).2 (by decide)).1,
   ((c10_min_three qrs3 env500).2 (by decide)).2.2 _⟩

/-- C6: an export reporting `isValid = false` (in this model exactly the
empty residue list, every rational coordinate being finite) makes the search
fail with a validation error and an all-zero request log; and with the
export valid, a non-success ticket response or a success response lacking a
truthy ticket id is a terminal transport error reached after the single
ticket request and zero status polls. -/
theorem c6_error_paths (rs : List (Residue ℚ)) (env : SearchEnv) :
    ((exportToPDB rs).isValid = false →
      searchFoldseek rs env =
        (some (Except.error (SearchError.validation
          "Please add at least 3 residues to search")), ⟨0, 0, 0⟩)) ∧
    (3 ≤ rs.length → env.ticket.ok = false →
      searchFoldseek rs env =
        (some (Except.error (SearchError.transport
          ("Foldseek API error: " ++ toString env.ticket.statusCode))), ⟨1, 1, 0⟩)) ∧
    (3 ≤ rs.length → env.ticket.ok = true → strTruthy env.ticket.id = false →
      searchFoldseek rs env =
        (some (Except.error (SearchError.transport
          "No ticket ID received from Foldseek")), ⟨1, 1, 0⟩)) := by
  refine ⟨?_, ?_, ?_⟩
  · intro hval
    have hrs : rs = [] := by
      simpa [exportToPDB] using hval
    subst hrs
    simp [searchFoldseek]
  · intro h3 hok
    have hlt : ¬ rs.length < 3 := not_lt.mpr h3
    have hne : rs.isEmpty = false := by
      cases rs with
      | nil => simp at h3
      | cons a t => rfl
    have hval : ¬ ((exportToPDB rs).isValid = false) := by
      simp [exportToPDB, hne]
    simp [searchFoldseek, if_neg hlt, if_neg hval, hok]
  · intro h3 hok hid
    have hlt : ¬ rs.length < 3 := not_lt.mpr h3
    have hne : rs.isEmpty = false := by
      cases rs with
      | nil => simp at h3
      | cons a t => rfl
    have hval : ¬ ((exportToPDB rs).isValid = false) := by
      simp [exportToPDB, hne]
    simp [searchFoldseek, if_neg hlt, if_neg hval, hok, hid]

/-- Witness for C6: the empty list exports as invalid and the search makes no
request; `qrs3` against the HTTP-500 environment and against the missing-id
environment each stop after the ticket request with a transport error. -/
theorem c6_error_paths_witness :
    (exportToPDB []).isValid = false ∧
    searchFoldseek [] env500 =
      (some (Except.error (SearchError.validation
        "Please add at least 3 residues to search")), ⟨0, 0, 0⟩) ∧
    searchFoldseek qrs3 env500 =
      (some (Except.error (SearchError.transport "Foldseek API error: 500")), ⟨1, 1, 0⟩) ∧
    searchFoldseek qrs3 envNoId =
      (some (Except.error (SearchError.transport
        "No ticket ID received from Foldseek")), ⟨1, 1, 0⟩) :=
  ⟨by decide,
   (c6_error_paths [] env500).1 (by decide),
   by
    have h := (c6_error_paths qrs3 env500).2.1 (by decide) (by decide)
    simpa using h,
   (c6_error_paths qrs3 envNoId).2.2 (by decide) (by decide) (by decide)⟩

/-- C7 (amended): flattening walks the databases in order taking at most the
first 10 alignments of each; scores and lengths are copied verbatim and
names are copied verbatim except that an empty (falsy) name is replaced by
"Unknown"; a single database with two alignments yields exactly their two
records; and a completed search whose flattened list is empty fails with the
distinct no-matches outcome, a different constructor from the transport,
remote and validation errors. -/
theorem c7_parse_spec :
    (∀ a : Alignment,
      (normalizeAlignment a).score = a.score ∧
      (normalizeAlignment a).qlen = a.qlen ∧
      (normalizeAlignment a).tlen = a.tlen ∧
      (a.tname ≠ "" → (normalizeAlignment a).tname = a.tname)) ∧
    (∀ dbs : List DbHits,
      (parseResults dbs).length =
        (dbs.map fun db => min 10 (db.alignments.getD []).length).sum) ∧
    (∀ a1 a2 : Alignment,
      parseResults [⟨some [a1, a2]⟩] = [normalizeAlignment a1, normalizeAlignment a2]) ∧
    (∀ (rs : List (Residue ℚ)) (env : SearchEnv) (resp : StatusResponse)
        (dbs : List DbHits) (n : ℕ),
      3 ≤ rs.length → env.ticket.ok = true → strTruthy env.ticket.id = true →
      pollLoop env.polls = (some (Except.ok resp), n) →
      resp.result = some dbs → parseResults dbs = [] →
      (searchFoldseek rs env).1 =
        some (Except.error (SearchError.emptyResult "No similar structures found"))) ∧
    (∀ m1 m2 : String,
      SearchError.emptyResult m1 ≠ SearchError.transport m2 ∧
      SearchError.emptyResult m1 ≠ SearchError.remote m2 ∧
      SearchError.emptyResult m1 ≠ SearchError.validation m2) := by
  refine ⟨?_, ?_, ?_, ?_, ?_⟩
  · intro a
    refine ⟨?_, ?_, ?_, ?_⟩
    · by_cases h : a.score = 0 <;> simp [normalizeAlignment, h]
    · by_cases h : a.qlen = 0 <;> simp [normalizeAlignment, h]
    · by_cases h : a.tlen = 0 <;> simp [normalizeAlignment, h]
    · intro h; simp [normalizeAlignment, h]
  · intro dbs
    induction dbs with
    | nil => rfl
    | cons db rest ih =>
      simp only [parseResults, List.length_append, ih, List.map_cons, List.sum_cons]
      congr 1
      cases h : db.alignments with
      | none => simp [h]
      | some as => simp [h, List.length_take]
  · intro a1 a2; rfl
  · intro rs env resp dbs n h3 hok hid hp hr hempty
    have hlt : ¬ rs.length < 3 := not_lt.mpr h3
    have hne : rs.isEmpty = false := by
      cases rs with
      | nil => simp at h3
      | cons a t => rfl
    have hval : ¬ ((exportToPDB rs).isValid = false) := by
      simp [exportToPDB, hne]
    have hok' : ¬ (env.ticket.ok = false) := by simp [hok]
    have hid' : ¬ (strTruthy env.ticket.id = false) := by simp [hid]
    simp [searchFoldseek, if_neg hlt, if_neg hval, hok', hid', hp, hr, hempty]
  · intro m1 m2
    refine ⟨?_, ?_, ?_⟩ <;> intro h <;> cases h

/-- Counterexample for C7 as frozen: a completed search whose single
alignment carries the empty name yields a record whose name is "Unknown",
not the input's name - names are not always copied verbatim. -/
theorem c7_counterexample :
    (searchFoldseek qrs3 envComplete).1 =
      some (Except.ok [⟨"1abc", 42, "Unknown", 3, 120⟩]) ∧
    alEmptyName.tname = "" ∧
    ("Unknown" : String) ≠ "" := by
  refine ⟨by decide, rfl, by decide⟩

/-- Witness for C7: two verbatim alignments in one database flatten to
exactly their two records, and an empty flattened list reaches the
no-matches outcome. -/
theorem c7_parse_spec_witness :
    parseResults [⟨some [⟨"2xyz_B", 7, "protA", 4, 9⟩, ⟨"3q_C", 8, "protB", 4, 11⟩]⟩] =
      [⟨"2xyz", 7, "protA", 4, 9⟩, ⟨"3q", 8, "protB", 4, 11⟩] ∧
    (normalizeAlignment ⟨"2xyz_B", 7, "protA", 4, 9⟩).tname = "protA" ∧
    (searchFoldseek qrs3 ⟨⟨true, 200, some "t1"⟩,
        [⟨"COMPLETE", none, some [⟨some []⟩]⟩]⟩).1 =
      some (Except.error (SearchError.emptyResult "No similar structures found")) := by
  refine ⟨?_, ?_, ?_⟩
  · have h := c7_parse_spec.2.2.1 ⟨"2xyz_B", 7, "protA", 4, 9⟩ ⟨"3q_C", 8, "protB", 4, 11⟩
    rw [h]
    decide
  · exact (c7_parse_spec.1 ⟨"2xyz_B", 7, "protA", 4, 9⟩).2.2.2 (by decide)
  · exact c7_parse_spec.2.2.2.1 qrs3 _ ⟨"COMPLETE", none, some [⟨some []⟩]⟩ [⟨some []⟩] 1
      (by decide) rfl (by decide) (by decide) rfl rfl

/-! ### Lemmas about recentering and the codec round trip -/

theorem list_sum_sub_const (l : List ℚ) (c : ℚ) :
    (l.map fun q => q - c).sum = l.sum - l.length * c := by
  induction l with
  | nil => simp
  | cons a t ih =>
    simp only [List.map_cons, List.sum_cons, ih, List.length_cons, Nat.cast_succ]
    ring

theorem centered_sum_zero (l : List ℚ) (h : l ≠ []) :
    (l.map fun q => q - l.sum / l.length).sum = 0 := by
  have h0 : l.length ≠ 0 := fun hc => h (List.length_eq_zero.mp hc)
  have hn : (l.length : ℚ) ≠ 0 := Nat.cast_ne_zero.mpr h0
  rw [list_sum_sub_const]
  field_simp

/-- Each coordinate axis of a recentered nonempty list sums to zero. -/
theorem recenter_axis_sums (l : List (Residue ℚ)) (h : l ≠ []) :
    ((recenter l).map fun r => r.position.x).sum = 0 ∧
    ((recenter l).map fun r => r.position.y).sum = 0 ∧
    ((recenter l).map fun r => r.position.z).sum = 0 := by
  refine ⟨?_, ?_, ?_⟩
  · have h0 := centered_sum_zero (l.map fun r => r.position.x) (by simpa using h)
    rw [List.map_map] at h0
    simpa [recenter, List.map_map, List.length_map, Function.comp] using h0
  · have h0 := centered_sum_zero (l.map fun r => r.position.y) (by simpa using h)
    rw [List.map_map] at h0
    simpa [recenter, List.map_map, List.length_map, Function.comp] using h0
  · have h0 := centered_sum_zero (l.map fun r => r.position.z) (by simpa using h)
    rw [List.map_map] at h0
    simpa [recenter, List.map_map, List.length_map, Function.comp] using h0

/-- C8: a successful download with a nonempty parse returns exactly the
parsed list with the per-axis mean subtracted from every position, so every
coordinate axis of the result sums to zero (mean zero) with the residue
count preserved; a parse yielding zero residues is a parse error returning
no residues. -/
theorem c8_recenter (resp : FetchResponse) (c : ℕ) (hok : resp.ok = true) :
    (parsePDBToResidues resp.body c ≠ [] →
      fetchPDBStructure resp c = Except.ok (recenter (parsePDBToResidues resp.body c)) ∧
      recenter (parsePDBToResidues resp.body c) =
        (parsePDBToResidues resp.body c).map (fun r =>
          { r with position := ⟨
              r.position.x - ((parsePDBToResidues resp.body c).map
                fun r' => r'.position.x).sum / (parsePDBToResidues resp.body c).length,
              r.position.y - ((parsePDBToResidues resp.body c).map
                fun r' => r'.position.y).sum / (parsePDBToResidues resp.body c).length,
              r.position.z - ((parsePDBToResidues resp.body c).map
                fun r' => r'.position.z).sum / (parsePDBToResidues resp.body c).length⟩ }) ∧
      (recenter (parsePDBToResidues resp.body c)).length =
        (parsePDBToResidues resp.body c).length ∧
      ((recenter (parsePDBToResidues resp.body c)).map fun r => r.position.x).sum = 0 ∧
      ((recenter (parsePDBToResidues resp.body c)).map fun r => r.position.y).sum = 0 ∧
      ((recenter (parsePDBToResidues resp.body c)).map fun r => r.position.z).sum = 0) ∧
    (parsePDBToResidues resp.body c = [] →
      fetchPDBStructure resp c =
        Except.error (FetchError.parse "No valid residues found in PDB file")) := by
  constructor
  · intro hne
    have hlen : ¬ ((parsePDBToResidues resp.body c).length = 0) := by
      simpa [List.length_eq_zero] using hne
    obtain ⟨hx, hy, hz⟩ := recenter_axis_sums _ hne
    exact ⟨by simp [fetchPDBStructure, hok, hlen], rfl, by simp [recenter], hx, hy, hz⟩
  · intro hnil
    simp [fetchPDBStructure, hok, hnil]

/-- Witness for C8: a two-record body parses to two residues whose recentered
x coordinates are -3/2 and 3/2, summing to 0. -/
theorem c8_recenter_witness :
    fetchPDBStructure ⟨true, 200, ⟨[⟨1, "Ala", 1, 2, 3⟩, ⟨2, "Gly", 4, 2, 3⟩]⟩⟩ 0 =
      Except.ok [⟨1, "Ala", ⟨-3/2, 0, 0⟩, ⟨0, 0, 0, 1⟩, none⟩,
                 ⟨2, "Gly", ⟨3/2, 0, 0⟩, ⟨0, 0, 0, 1⟩, none⟩] ∧
    ((recenter (parsePDBToResidues ⟨[⟨1, "Ala", 1, 2, 3⟩, ⟨2, "Gly", 4, 2, 3⟩]⟩ 0)).map
      fun r => r.position.x).sum = 0 := by
  have h := c8_recenter ⟨true, 200, ⟨[⟨1, "Ala", 1, 2, 3⟩, ⟨2, "Gly", 4, 2, 3⟩]⟩⟩ 0 rfl
  have hne : parsePDBToResidues (⟨[⟨1, "Ala", 1, 2, 3⟩, ⟨2, "Gly", 4, 2, 3⟩]⟩ : PDBText) 0 ≠ [] := by
    simp [parsePDBToResidues, residuesFrom]
  refine ⟨?_, (h.1 hne).2.2.2.1⟩
  rw [(h.1 hne).1]
  congr 1
  norm_num [recenter, parsePDBToResidues, residuesFrom, generateId, importType, AMINO_CODES]

theorem fmt3_close (q : ℚ) : |fmt3 q - q| ≤ 1 / 1000 := by
  have h1 : |(round (q * 1000) : ℚ) - q * 1000| ≤ 1 / 2 := by
    rw [abs_sub_comm]
    exact abs_sub_round (q * 1000)
  have h2 : fmt3 q - q = ((round (q * 1000) : ℚ) - q * 1000) / 1000 := by
    unfold fmt3; ring
  rw [h2, abs_div, abs_of_pos (by norm_num : (0 : ℚ) < 1000)]
  linarith

/-- The per-residue round-trip relation of claim C1: same type, coordinates
within 0.001, no bond. -/
def RoundTrip (out orig : Residue ℚ) : Prop :=
  out.type = orig.type ∧
  |out.position.x - orig.position.x| ≤ 1 / 1000 ∧
  |out.position.y - orig.position.y| ≤ 1 / 1000 ∧
  |out.position.z - orig.position.z| ≤ 1 / 1000 ∧
  out.connectedTo = none

theorem roundtrip_forall2 :
    ∀ (rs : List (Residue ℚ)) (serial c : ℕ),
      (∀ r ∈ rs, r.type ∈ AMINO_CODES) →
      List.Forall₂ RoundTrip (residuesFrom c (atomsFrom serial rs)) rs := by
  intro rs
  induction rs with
  | nil => intro serial c _; exact List.Forall₂.nil
  | cons r rest ih =>
    intro serial c hty
    refine List.Forall₂.cons ?_ (ih (serial + 1) (generateId c) fun x hx => hty x (by simp [hx]))
    have hr : r.type ∈ AMINO_CODES := hty r (by simp)
    exact ⟨by simp [importType, hr], fmt3_close _, fmt3_close _, fmt3_close _, rfl⟩

/-- C1: importing the export of any nonempty canonical-typed residue list
yields the same residue count with, pointwise in order, the same type code,
coordinates within 0.001 of the originals, and `connectedTo` null on every
resulting residue regardless of the input's bonds. -/
theorem c1_roundtrip (rs : List (Residue ℚ)) (c : ℕ) (_hne : rs ≠ [])
    (hty : ∀ r ∈ rs, r.type ∈ AMINO_CODES) :
    (parsePDBToResidues (exportToPDB rs).pdbString c).length = rs.length ∧
    List.Forall₂ RoundTrip (parsePDBToResidues (exportToPDB rs).pdbString c) rs := by
  have h := roundtrip_forall2 rs 1 c hty
  exact ⟨h.length_eq, h⟩

/-- Witness for C1 at a one-residue list with a bonded, oddly positioned
residue: the round trip keeps the count and type, moves each coordinate by
at most 0.001, and nulls the bond. -/
theorem c1_roundtrip_witness :
    (parsePDBToResidues (exportToPDB [⟨5, "Ala", ⟨12345/10000, -1/3, 2⟩, ⟨0, 0, 0, 1⟩, some 9⟩]).pdbString 7).length = 1 ∧
    List.Forall₂ RoundTrip
      (parsePDBToResidues (exportToPDB [⟨5, "Ala", ⟨12345/10000, -1/3, 2⟩, ⟨0, 0, 0, 1⟩, some 9⟩]).pdbString 7)
      [⟨5, "Ala", ⟨12345/10000, -1/3, 2⟩, ⟨0, 0, 0, 1⟩, some 9⟩] :=
  c1_roundtrip [⟨5, "Ala", ⟨12345/10000, -1/3, 2⟩, ⟨0, 0, 0, 1⟩, some 9⟩] 7
    (by decide) (by decide)

/-! ### Preservation of the invariant (claim C5) -/

theorem inv_initial {α : Type} : Inv (initialState α) := by
  refine ⟨List.nodup_nil, ?_, ?_⟩ <;> intro r hr <;> cases hr

theorem idList_updateResidue {α : Type} (id : ℕ) (props : ResidueProps α)
    (s : ProteinState α) : idList (updateResidue id props s) = idList s := by
  simp only [idList, updateResidue, List.map_map]
  refine List.map_congr_left fun r _ => ?_
  by_cases h : r.id = id <;> simp [h, applyProps_id]

theorem idList_connectResidues {α : Type} (idA idB : ℕ) (s : ProteinState α) :
    idList (connectResidues idA idB s) = idList s := by
  simp only [idList, connectResidues, List.map_map]
  refine List.map_congr_left fun r _ => ?_
  by_cases h : r.id = idA <;> simp [h]

theorem inv_addResidue {α : Type} [Zero α] [One α] (ty : String) (pos : V3 α)
    (s : ProteinState α) (h : Inv s) : Inv (addResidue ty pos s).2 := by
  obtain ⟨h1, h2, h3⟩ := h
  have hfresh : generateId s.counter ∉ idList s := by
    intro hmem
    obtain ⟨r, hr, hid⟩ := List.mem_map.mp hmem
    have := h3 r hr
    simp only [generateId] at hid
    omega
  have hid : idList (addResidue ty pos s).2 = idList s ++ [generateId s.counter] := by
    simp [idList, addResidue]
  refine ⟨?_, ?_, ?_⟩
  · rw [hid, List.nodup_append]
    refine ⟨h1, List.nodup_singleton _, fun a ha hb => ?_⟩
    rw [List.mem_singleton] at hb
    subst hb
    exact hfresh ha
  · intro r hr t ht
    simp only [addResidue, List.mem_append, List.mem_singleton] at hr
    rcases hr with hr | hr
    · obtain ⟨hne, hmem⟩ := h2 r hr t ht
      refine ⟨hne, ?_⟩
      rw [hid]
      exact List.mem_append_left _ hmem
    · subst hr; cases ht
  · intro r hr
    simp only [addResidue, List.mem_append, List.mem_singleton] at hr
    rcases hr with hr | hr
    · have := h3 r hr
      simp only [addResidue, generateId]
      omega
    · subst hr
      simp [addResidue, generateId]

theorem inv_updateResidue (id : ℕ) (props : ResidueProps ℚ) (s : ProteinState ℚ)
    (hp : ∀ t, props.connectedTo? = some (some t) → t ≠ id ∧ t ∈ idList s)
    (h : Inv s) : Inv (updateResidue id props s) := by
  obtain ⟨h1, h2, h3⟩ := h
  refine ⟨by rw [idList_updateResidue]; exact h1, ?_, ?_⟩
  · intro r' hr' t ht
    simp only [updateResidue, List.mem_map] at hr'
    obtain ⟨r, hr, hr'eq⟩ := hr'
    rw [idList_updateResidue]
    by_cases hid : r.id = id
    · rw [if_pos hid] at hr'eq
      subst hr'eq
      rcases hc : props.connectedTo? with _ | c
      · have : r.connectedTo = some t := by
          simpa [applyProps, hc] using ht
        obtain ⟨hne, hmem⟩ := h2 r hr t this
        exact ⟨by simpa [applyProps_id] using hne, hmem⟩
      · rcases c with _ | c
        · simp [applyProps, hc] at ht
        · have hct : c = t := by simpa [applyProps, hc] using ht
          subst hct
          obtain ⟨hne, hmem⟩ := hp c hc
          exact ⟨by simpa [applyProps_id, hid] using hne, hmem⟩
    · rw [if_neg hid] at hr'eq
      subst hr'eq
      exact h2 r hr t ht
  · intro r' hr'
    simp only [updateResidue, List.mem_map] at hr'
    obtain ⟨r, hr, hr'eq⟩ := hr'
    have := h3 r hr
    by_cases hid : r.id = id
    · rw [if_pos hid] at hr'eq
      subst hr'eq
      simpa [applyProps_id, updateResidue] using this
    · rw [if_neg hid] at hr'eq
      subst hr'eq
      simpa [updateResidue] using this

theorem inv_removeResidue {α : Type} (id : ℕ) (s : ProteinState α) (h : Inv s) :
    Inv (removeResidue id s) := by
  obtain ⟨h1, h2, h3⟩ := h
  have hids : idList (removeResidue id s) =
      (s.residues.filter fun r => r.id ≠ id).map Residue.id := by
    simp only [idList, removeResidue, List.map_map]
    exact List.map_congr_left fun r _ => rfl
  refine ⟨?_, ?_, ?_⟩
  · rw [hids]
    exact h1.sublist (List.Sublist.map Residue.id (List.filter_sublist s.residues))
  · intro r' hr' t ht
    simp only [removeResidue, List.mem_map, List.mem_filter] at hr'
    obtain ⟨r, ⟨hr, hrid⟩, hr'eq⟩ := hr'
    subst hr'eq
    by_cases hc : r.connectedTo = some id
    · simp [hc] at ht
    · have hrt : r.connectedTo = some t := by simpa [hc] using ht
      have htid : t ≠ id := fun hti => hc (by rwa [hti] at hrt)
      obtain ⟨hne, hmem⟩ := h2 r hr t hrt
      refine ⟨hne, ?_⟩
      rw [hids]
      obtain ⟨r0, hr0, hr0id⟩ := List.mem_map.mp hmem
      refine List.mem_map.mpr ⟨r0, List.mem_filter.mpr ⟨hr0, ?_⟩, hr0id⟩
      simpa [hr0id] using htid
  · intro r' hr'
    simp only [removeResidue, List.mem_map, List.mem_filter] at hr'
    obtain ⟨r, ⟨hr, _⟩, hr'eq⟩ := hr'
    subst hr'eq
    simpa [removeResidue] using h3 r hr

theorem inv_connectResidues {α : Type} (idA idB : ℕ) (s : ProteinState α)
    (hmem : idB ∈ idList s) (hne : idB ≠ idA) (h : Inv s) :
    Inv (connectResidues idA idB s) := by
  obtain ⟨h1, h2, h3⟩ := h
  refine ⟨by rw [idList_connectResidues]; exact h1, ?_, ?_⟩
  · intro r' hr' t ht
    simp only [connectResidues, List.mem_map] at hr'
    obtain ⟨r, hr, hr'eq⟩ := hr'
    rw [idList_connectResidues]
    by_cases hid : r.id = idA
    · rw [if_pos hid] at hr'eq
      subst hr'eq
      have htb : t = idB := by simpa using ht.symm
      subst htb
      exact ⟨by simpa [hid] using hne, hmem⟩
    · rw [if_neg hid] at hr'eq
      subst hr'eq
      exact h2 r hr t ht
  · intro r' hr'
    simp only [connectResidues, List.mem_map] at hr'
    obtain ⟨r, hr, hr'eq⟩ := hr'
    have := h3 r hr
    by_cases hid : r.id = idA <;>
      [rw [if_pos hid] at hr'eq; rw [if_neg hid] at hr'eq] <;>
      subst hr'eq <;> simpa [connectResidues] using this

/-- C5 (amended): starting from the empty store, every state reachable by
the actions under the caller obligations the spec itself states (connect
targets an existing, distinct id; update writes only null or existing
non-self references; wholesale replacement installs only lists already
satisfying the invariant with generator-produced ids) has pairwise distinct
ids, and every set `connectedTo` references an existing id other than its
own residue's. -/
theorem c5_invariant (s : ProteinState ℚ) (h : Reachable s) : Inv s := by
  induction h with
  | init => exact inv_initial
  | step _ hstep ih =>
    cases hstep with
    | add ty pos s1 => exact inv_addResidue _ _ _ ih
    | update id props s1 hp => exact inv_updateResidue _ _ _ hp ih
    | remove id s1 => exact inv_removeResidue _ _ ih
    | connect idA idB s1 h1 h2 => exact inv_connectResidues _ _ _ h1 h2 ih
    | select o s1 => exact ⟨ih.1, ih.2.1, ih.2.2⟩
    | clear s1 =>
      refine ⟨List.nodup_nil, ?_, ?_⟩ <;> intro r hr <;> simp [clearAll] at hr
    | replaceAll rs s1 h1 h2 h3 => exact ⟨h1, h2, h3⟩

/-- Witness for C5: the state built by two adds and a guarded connect is
reachable and satisfies the invariant. -/
theorem c5_invariant_witness :
    Inv (connectResidues 2 1 (addResidue "Gly" ⟨1, 0, 0⟩
      (addResidue "Ala" ⟨0, 0, 0⟩ (initialState ℚ)).2).2) :=
  c5_invariant _
    (Reachable.step
      (Reachable.step (Reachable.step Reachable.init (Step.add "Ala" ⟨0, 0, 0⟩ _))
        (Step.add "Gly" ⟨1, 0, 0⟩ _))
      (Step.connect 2 1 _ (by decide) (by decide)))

/-- Counterexample for C5 as frozen: with unrestricted arguments the very
operations the claim quantifies over break the invariant - a connect of a
residue to itself creates a self-reference, an update can point a residue at
a nonexistent id, and a wholesale replacement can install duplicate ids. -/
theorem c5_counterexample :
    (((connectResidues 1 1 (addResidue "Gly" ⟨0, 0, 0⟩ (initialState ℚ)).2).residues.map
        fun r => (r.id, r.connectedTo)) = [(1, some 1)]) ∧
    (((updateResidue 1 ⟨none, none, none, some (some 99)⟩
        (addResidue "Gly" ⟨0, 0, 0⟩ (initialState ℚ)).2).residues.map
        fun r => r.connectedTo) = [some 99] ∧
      99 ∉ idList (updateResidue 1 ⟨none, none, none, some (some 99)⟩
        (addResidue "Gly" ⟨0, 0, 0⟩ (initialState ℚ)).2)) ∧
    ¬ (idList (setResidues [qr1, qr1] (initialState ℚ))).Nodup := by
  refine ⟨by decide, ⟨by decide, by decide⟩, by decide⟩

/-! ### Geometry of the snap -/

theorem vlen_nonneg (a : V3 ℝ) : 0 ≤ vlen a := Real.sqrt_nonneg _

theorem vlen_zero_iff (a : V3 ℝ) : vlen a = 0 ↔ a = ⟨0, 0, 0⟩ := by
  constructor
  · intro h
    have hle : a.x ^ 2 + a.y ^ 2 + a.z ^ 2 ≤ 0 := Real.sqrt_eq_zero'.mp h
    have hx : a.x = 0 := by nlinarith [sq_nonneg a.x, sq_nonneg a.y, sq_nonneg a.z]
    have hy : a.y = 0 := by nlinarith [sq_nonneg a.x, sq_nonneg a.y, sq_nonneg a.z]
    have hz : a.z = 0 := by nlinarith [sq_nonneg a.x, sq_nonneg a.y, sq_nonneg a.z]
    cases a
    simp_all
  · rintro rfl
    simp [vlen]

theorem vlen_smul (c : ℝ) (a : V3 ℝ) : vlen (vsmul c a) = |c| * vlen a := by
  simp only [vlen, vsmul]
  rw [show (c * a.x) ^ 2 + (c * a.y) ^ 2 + (c * a.z) ^ 2
      = c ^ 2 * (a.x ^ 2 + a.y ^ 2 + a.z ^ 2) by ring]
  rw [Real.sqrt_mul (sq_nonneg c), Real.sqrt_sq_eq_abs]

theorem vlen_normalize (a : V3 ℝ) (h : a ≠ ⟨0, 0, 0⟩) : vlen (vnormalize a) = 1 := by
  have hne : vlen a ≠ 0 := fun hc => h ((vlen_zero_iff a).mp hc)
  have hpos : 0 < vlen a := lt_of_le_of_ne (vlen_nonneg a) (Ne.symm hne)
  rw [vnormalize, if_neg hne, vlen_smul,
    abs_of_pos (by positivity : (0 : ℝ) < 1 / vlen a)]
  field_simp

theorem vsub_snappedPos (p q : V3 ℝ) :
    vsub (snappedPos p q) q = vsmul BOND_DISTANCE (vnormalize (vsub p q)) := by
  simp only [snappedPos, vadd, vsub, vsmul, V3.mk.injEq]
  refine ⟨by ring, by ring, by ring⟩

theorem dist3_self (a : V3 ℝ) : dist3 a a = 0 := by
  simp only [dist3, vsub, sub_self]
  rw [vlen_zero_iff]

theorem dist3_snappedPos (p q : V3 ℝ) (h : p ≠ q) :
    dist3 (snappedPos p q) q = BOND_DISTANCE := by
  have hvne : vsub p q ≠ (⟨0, 0, 0⟩ : V3 ℝ) := by
    intro hc
    apply h
    have hx := congrArg V3.x hc
    have hy := congrArg V3.y hc
    have hz := congrArg V3.z hc
    simp only [vsub] at hx hy hz
    cases p; cases q
    simp only [V3.mk.injEq] at hx hy hz ⊢
    exact ⟨by linarith, by linarith, by linarith⟩
  rw [dist3, vsub_snappedPos, vlen_smul, vlen_normalize _ hvne, mul_one]
  exact abs_of_pos (by norm_num [BOND_DISTANCE])

/-! ### Characterization of the snap search loop -/

/-- Full characterization of the source's search loop relative to an
arbitrary accumulator: a `none` result means the accumulator was empty and no
candidate lies within the threshold; a `some` result is either the untouched
accumulator, which no candidate beat, or a candidate of the list at some
index, strictly within the threshold, strictly better than the accumulator
and all earlier qualifying candidates, and at least as good as all later
ones. -/
theorem snapLoop_char (d : ℕ) (p : V3 ℝ) :
    ∀ (rs : List (Residue ℝ)) (best : Option (Residue ℝ × ℝ)),
      (snapLoop d p rs best = none →
        best = none ∧ ∀ r ∈ rs, IsCand d r → ¬ dist3 p r.position < SNAP_THRESHOLD) ∧
      (∀ n dv, snapLoop d p rs best = some (n, dv) →
        (best = some (n, dv) ∧
          ∀ r ∈ rs, IsCand d r →
            ¬ (dist3 p r.position < SNAP_THRESHOLD ∧ dist3 p r.position < dv)) ∨
        (IsCand d n ∧ dv = dist3 p n.position ∧ dv < SNAP_THRESHOLD ∧
          (∀ b, best = some b → dv < b.2) ∧
          ∃ i, ∃ hi : i < rs.length, rs.get ⟨i, hi⟩ = n ∧
            (∀ j (hj : j < rs.length), j < i → IsCand d (rs.get ⟨j, hj⟩) →
              dist3 p (rs.get ⟨j, hj⟩).position < SNAP_THRESHOLD →
              dv < dist3 p (rs.get ⟨j, hj⟩).position) ∧
            (∀ j (hj : j < rs.length), i < j → IsCand d (rs.get ⟨j, hj⟩) →
              dv ≤ dist3 p (rs.get ⟨j, hj⟩).position))) := by
  intro rs
  induction rs with
  | nil =>
    intro best
    constructor
    · intro h
      exact ⟨h, fun r hr => absurd hr (List.not_mem_nil r)⟩
    · intro n dv h
      exact Or.inl ⟨h, fun r hr => absurd hr (List.not_mem_nil r)⟩
  | cons a rest ih =>
    intro best
    by_cases hskip : a.id = d ∨ a.connectedTo = some d
    · -- the head is skipped: it is not a candidate
      have hnc : ¬ IsCand d a := by
        rcases hskip with h1 | h2
        · exact fun hc => hc.1 h1
        · exact fun hc => hc.2 h2
      have hstep : snapLoop d p (a :: rest) best = snapLoop d p rest best := by
        rcases hskip with h1 | h2
        · simp [snapLoop, h1]
        · by_cases h1 : a.id = d <;> simp [snapLoop, h1, h2]
      constructor
      · intro h
        rw [hstep] at h
        obtain ⟨hb, hrest⟩ := (ih best).1 h
        refine ⟨hb, fun r hr hc => ?_⟩
        rcases List.mem_cons.mp hr with rfl | hr
        · exact absurd hc hnc
        · exact hrest r hr hc
      · intro n dv h
        rw [hstep] at h
        rcases (ih best).2 n dv h with ⟨hb, hrest⟩ | hmain
        · left
          refine ⟨hb, fun r hr hc => ?_⟩
          rcases List.mem_cons.mp hr with rfl | hr
          · exact fun _ => absurd hc hnc
          · exact hrest r hr hc
        · right
          obtain ⟨hc, hdv, hlt, hb, i, hi, hget, hbefore, hafter⟩ := hmain
          refine ⟨hc, hdv, hlt, hb, i + 1, Nat.succ_lt_succ hi, by simpa using hget,
            ?_, ?_⟩
          · intro j hj hji hcand hdist
            cases j with
            | zero =>
              exact absurd (by simpa using hcand) hnc
            | succ k =>
              have hk : k < rest.length := Nat.lt_of_succ_lt_succ hj
              exact hbefore k hk (Nat.lt_of_succ_lt_succ hji)
                (by simpa using hcand) (by simpa using hdist)
          · intro j hj hji hcand
            cases j with
            | zero => omega
            | succ k =>
              have hk : k < rest.length := Nat.lt_of_succ_lt_succ hj
              exact hafter k hk (Nat.lt_of_succ_lt_succ hji) (by simpa using hcand)
    · push_neg at hskip
      obtain ⟨hid, hconn⟩ := hskip
      have hcand_a : IsCand d a := ⟨hid, hconn⟩
      by_cases hkeep : snapKeep (dist3 p a.position) best
      · -- the head replaces the accumulator
        have hstep : snapLoop d p (a :: rest) best =
            snapLoop d p rest (some (a, dist3 p a.position)) := by
          simp [snapLoop, hid, hconn, hkeep]
        have hda : dist3 p a.position < SNAP_THRESHOLD := by
          cases hbest : best with
          | none => rw [hbest] at hkeep; exact hkeep
          | some b => rw [hbest] at hkeep; exact hkeep.1
        constructor
        · intro h
          rw [hstep] at h
          obtain ⟨hb, _⟩ := (ih _).1 h
          exact absurd hb (by simp)
        · intro n dv h
          rw [hstep] at h
          rcases (ih _).2 n dv h with ⟨hb, hrest⟩ | hmain
          · -- the new accumulator survived the rest of the list
            have hna : a = n ∧ dist3 p a.position = dv := by
              have h' := hb.symm
              simp only [Option.some.injEq, Prod.mk.injEq] at h'
              exact ⟨h'.1.symm, h'.2.symm⟩
            obtain ⟨rfl, hdv⟩ := hna
            right
            refine ⟨hcand_a, hdv.symm, hdv ▸ hda, ?_, 0, Nat.succ_pos _, by simp,
              ?_, ?_⟩
            · intro b hbeq
              rw [hbeq] at hkeep
              exact hdv ▸ hkeep.2
            · intro j hj hji _ _
              omega
            · intro j hj hji hcand_j
              cases j with
              | zero => omega
              | succ k =>
                have hk : k < rest.length := Nat.lt_of_succ_lt_succ hj
                have := hrest ((a :: rest).get ⟨k + 1, hj⟩) (by
                  exact List.get_mem _ _ _) (hcand_j)
                by_contra hcon
                push_neg at hcon
                exact this ⟨lt_trans hcon (hdv ▸ hda), hcon⟩
          · -- a later candidate replaced the head
            obtain ⟨hc, hdv, hlt, hb, i, hi, hget, hbefore, hafter⟩ := hmain
            have hdva : dv < dist3 p a.position := hb _ rfl
            right
            refine ⟨hc, hdv, hlt, ?_, i + 1, Nat.succ_lt_succ hi, by simpa using hget,
              ?_, ?_⟩
            · intro b hbeq
              rw [hbeq] at hkeep
              exact lt_trans hdva hkeep.2
            · intro j hj hji hcand_j hdist_j
              cases j with
              | zero => simpa using hdva
              | succ k =>
                have hk : k < rest.length := Nat.lt_of_succ_lt_succ hj
                exact hbefore k hk (Nat.lt_of_succ_lt_succ hji)
                  (by simpa using hcand_j) (by simpa using hdist_j)
            · intro j hj hji hcand_j
              cases j with
              | zero => omega
              | succ k =>
                have hk : k < rest.length := Nat.lt_of_succ_lt_succ hj
                exact hafter k hk (Nat.lt_of_succ_lt_succ hji) (by simpa using hcand_j)
      · -- the head does not qualify against the current accumulator
        have hstep : snapLoop d p (a :: rest) best = snapLoop d p rest best := by
          simp [snapLoop, hid, hconn, hkeep]
        constructor
        · intro h
          rw [hstep] at h
          obtain ⟨hb, hrest⟩ := (ih best).1 h
          refine ⟨hb, fun r hr hc => ?_⟩
          rcases List.mem_cons.mp hr with rfl | hr
          · rw [hb] at hkeep
            exact fun hdist => hkeep hdist
          · exact hrest r hr hc
        · intro n dv h
          rw [hstep] at h
          rcases (ih best).2 n dv h with ⟨hb, hrest⟩ | hmain
          · left
            refine ⟨hb, fun r hr hc => ?_⟩
            rcases List.mem_cons.mp hr with rfl | hr
            · rw [hb] at hkeep
              exact fun hcon => hkeep hcon
            · exact hrest r hr hc
          · right
            obtain ⟨hc, hdv, hlt, hb, i, hi, hget, hbefore, hafter⟩ := hmain
            refine ⟨hc, hdv, hlt, hb, i + 1, Nat.succ_lt_succ hi, by simpa using hget,
              ?_, ?_⟩
            · intro j hj hji hcand_j hdist_j
              cases j with
              | zero =>
                cases hbest : best with
                | none =>
                  rw [hbest] at hkeep
                  exact absurd (by simpa using hdist_j) hkeep
                | some b =>
                  rw [hbest] at hkeep
                  have hble : b.2 ≤ dist3 p a.position := by
                    by_contra hcon
                    push_neg at hcon
                    exact hkeep ⟨by simpa using hdist_j, by simpa using hcon⟩
                  have := hb b hbest
                  calc dv < b.2 := this
                    _ ≤ dist3 p ((a :: rest).get ⟨0, hj⟩).position := by simpa using hble
              | succ k =>
                have hk : k < rest.length := Nat.lt_of_succ_lt_succ hj
                exact hbefore k hk (Nat.lt_of_succ_lt_succ hji)
                  (by simpa using hcand_j) (by simpa using hdist_j)
            · intro j hj hji hcand_j
              cases j with
              | zero => omega
              | succ k =>
                have hk : k < rest.length := Nat.lt_of_succ_lt_succ hj
                exact hafter k hk (Nat.lt_of_succ_lt_succ hji) (by simpa using hcand_j)

/-- The neighbor a drag-release selects is a candidate of the list, strictly
within the threshold, of minimal distance among all candidates, and earliest
in insertion order among the minimizers. -/
theorem snapNeighbor_spec (d : ℕ) (p : V3 ℝ) (rs : List (Residue ℝ)) (n : Residue ℝ)
    (h : snapNeighbor d p rs = some n) :
    IsCand d n ∧ dist3 p n.position < SNAP_THRESHOLD ∧
    (∀ r ∈ rs, IsCand d r → dist3 p n.position ≤ dist3 p r.position) ∧
    ∃ i, ∃ hi : i < rs.length, rs.get ⟨i, hi⟩ = n ∧
      ∀ j (hj : j < rs.length), j < i → IsCand d (rs.get ⟨j, hj⟩) →
        dist3 p (rs.get ⟨j, hj⟩).position < SNAP_THRESHOLD →
        dist3 p n.position < dist3 p (rs.get ⟨j, hj⟩).position := by
  obtain ⟨nv, dv, hl⟩ : ∃ nv dv, snapLoop d p rs none = some (nv, dv) := by
    unfold snapNeighbor at h
    cases hl : snapLoop d p rs none with
    | none => rw [hl] at h; cases h
    | some x => exact ⟨x.1, x.2, rfl⟩
  have hnv : nv = n := by
    unfold snapNeighbor at h
    rw [hl] at h
    simpa using h
  rw [hnv] at hl
  rcases (snapLoop_char d p rs none).2 n dv hl with ⟨hb, _⟩ | hmain
  · cases hb
  · obtain ⟨hc, hdv, hlt, _, i, hi, hget, hbefore, hafter⟩ := hmain
    subst hdv
    refine ⟨hc, hlt, ?_, i, hi, hget, hbefore⟩
    intro r hr hcand
    obtain ⟨⟨j, hj⟩, hjr⟩ := List.mem_iff_get.mp hr
    subst hjr
    rcases lt_trichotomy j i with hji | hji | hji
    · by_cases hdist : dist3 p (rs.get ⟨j, hj⟩).position < SNAP_THRESHOLD
      · exact le_of_lt (hbefore j hj hji hcand hdist)
      · exact le_of_lt (lt_of_lt_of_le hlt (not_lt.mp hdist))
    · subst hji
      rw [show rs.get ⟨j, hj⟩ = n from hget]
    · exact hafter j hj hji hcand

/-- With a selected neighbor, the drag-release is exactly the two position
updates followed by `connectResidues(neighbor.id, dragged.id)`. -/
theorem dragRelease_eq_some (s : ProteinState ℝ) (d : ℕ) (p : V3 ℝ) (n : Residue ℝ)
    (h : snapNeighbor d p s.residues = some n) :
    dragRelease d p s =
      connectResidues n.id d
        (updateResidue d ⟨none, some (snappedPos p n.position), none, none⟩
          (updateResidue d ⟨none, some p, none, none⟩ s)) := by
  simp only [dragRelease, h]

/-- Residue-level effect of a drag-release that selected neighbor `n`: the
dragged residue moves to the snapped position, `n` gets `connectedTo :=
dragged`, and every other residue is untouched. -/
theorem dragRelease_residues_some (s : ProteinState ℝ) (d : ℕ) (p : V3 ℝ)
    (n : Residue ℝ) (h : snapNeighbor d p s.residues = some n) (hnd : n.id ≠ d) :
    (dragRelease d p s).residues = s.residues.map fun r =>
      if r.id = d then { r with position := snappedPos p n.position }
      else if r.id = n.id then { r with connectedTo := some d } else r := by
  simp only [dragRelease, h]
  simp only [connectResidues, updateResidue, List.map_map]
  refine List.map_congr_left fun r _ => ?_
  by_cases h1 : r.id = d
  · have h2 : ¬ (r.id = n.id) := fun hc => hnd (by rw [← hc, h1])
    have h3 : ¬ (d = n.id) := fun hc => hnd hc.symm
    simp [Function.comp, h1, h2, h3, applyProps]
  · by_cases h2 : r.id = n.id <;> simp [Function.comp, h1, h2, hnd, applyProps]

/-- Residue-level effect of a drag-release with no selected neighbor: only
the dragged residue's position changes, to the drop point itself. -/
theorem dragRelease_residues_none (s : ProteinState ℝ) (d : ℕ) (p : V3 ℝ)
    (h : snapNeighbor d p s.residues = none) :
    (dragRelease d p s).residues = s.residues.map fun r =>
      if r.id = d then { r with position := p } else r := by
  simp only [dragRelease, h]
  simp only [updateResidue]
  refine List.map_congr_left fun r _ => ?_
  by_cases h1 : r.id = d <;> simp [h1, applyProps]

/-- C2 (amended): whenever a drag-release selects a bonding neighbor `n` for
dragged residue `d`, the operation performed is `connect(n.id, d.id)` - a
reverse bond from the neighbor toward the dragged residue: `n.connectedTo`
is set to the dragged id, the dragged residue is moved to the snapped
position with its own `connectedTo` untouched, and no residue other than `n`
has its `connectedTo` changed. -/
theorem c2_bond_direction (s : ProteinState ℝ) (d : ℕ) (p : V3 ℝ) (n : Residue ℝ)
    (h : snapNeighbor d p s.residues = some n) :
    n.id ≠ d ∧
    dragRelease d p s =
      connectResidues n.id d
        (updateResidue d ⟨none, some (snappedPos p n.position), none, none⟩
          (updateResidue d ⟨none, some p, none, none⟩ s)) ∧
    (dragRelease d p s).residues = s.residues.map (fun r =>
      if r.id = d then { r with position := snappedPos p n.position }
      else if r.id = n.id then { r with connectedTo := some d } else r) := by
  have hcand := (snapNeighbor_spec d p s.residues n h).1
  exact ⟨hcand.1, dragRelease_eq_some s d p n h,
    dragRelease_residues_some s d p n h hcand.1⟩

/-- C3 (amended): if a neighbor is selected it is a qualifying candidate,
strictly within 5.0, of minimal distance with ties to the earliest in
insertion order, and the dragged residue is placed at
`neighbor.position + 3.8 * unit(p - neighbor.position)` - a position exactly
3.8 from the neighbor provided `p` differs from the neighbor's position (at
`p = neighbor.position` the source's zero-guarded normalize leaves the
dragged residue on the neighbor itself); if no candidate is strictly within
5.0, no neighbor is selected and the residue stays at `p` with no
`connectedTo` modified. -/
theorem c3_snap_spec (s : ProteinState ℝ) (d : ℕ) (p : V3 ℝ) :
    (∀ n, snapNeighbor d p s.residues = some n →
      (IsCand d n ∧ dist3 p n.position < SNAP_THRESHOLD ∧
        (∀ r ∈ s.residues, IsCand d r → dist3 p n.position ≤ dist3 p r.position) ∧
        ∃ i, ∃ hi : i < s.residues.length, s.residues.get ⟨i, hi⟩ = n ∧
          ∀ j (hj : j < s.residues.length), j < i → IsCand d (s.residues.get ⟨j, hj⟩) →
            dist3 p (s.residues.get ⟨j, hj⟩).position < SNAP_THRESHOLD →
            dist3 p n.position < dist3 p (s.residues.get ⟨j, hj⟩).position) ∧
      (dragRelease d p s).residues = s.residues.map (fun r =>
        if r.id = d then { r with position := snappedPos p n.position }
        else if r.id = n.id then { r with connectedTo := some d } else r) ∧
      (p ≠ n.position → dist3 (snappedPos p n.position) n.position = BOND_DISTANCE)) ∧
    (snapNeighbor d p s.residues = none →
      (∀ r ∈ s.residues, IsCand d r → ¬ dist3 p r.position < SNAP_THRESHOLD) ∧
      (dragRelease d p s).residues = s.residues.map (fun r =>
        if r.id = d then { r with position := p } else r)) := by
  constructor
  · intro n h
    have hspec := snapNeighbor_spec d p s.residues n h
    exact ⟨⟨hspec.1, hspec.2.1, hspec.2.2.1, hspec.2.2.2⟩,
      dragRelease_residues_some s d p n h hspec.1.1,
      fun hp => dist3_snappedPos p n.position hp⟩
  · intro h
    have hl : snapLoop d p s.residues none = none := by
      unfold snapNeighbor at h
      cases hl : snapLoop d p s.residues none with
      | none => rfl
      | some x => rw [hl] at h; cases h
    exact ⟨((snapLoop_char d p s.residues none).1 hl).2,
      dragRelease_residues_none s d p h⟩

/-! ### Concrete snap evaluations -/

theorem dist3_p0_resA : dist3 p0 resA.position = 3 := by
  simp only [dist3, vsub, vlen, p0, resA]
  rw [show ((3 : ℝ) - 0) ^ 2 + ((0 : ℝ) - 0) ^ 2 + ((0 : ℝ) - 0) ^ 2 = 3 ^ 2 by ring]
  exact Real.sqrt_sq (by norm_num)

theorem dist3_pC_resA : dist3 pC resA.position = 0 := by
  rw [show pC = resA.position by simp [pC, resA], dist3_self]

theorem snapExA : snapNeighbor 2 p0 stAB.residues = some resA := by
  have hkeep : snapKeep (dist3 p0 resA.position) none := by
    simp only [snapKeep, dist3_p0_resA]
    norm_num [SNAP_THRESHOLD]
  have hidA : ¬ (resA.id = 2) := by simp [resA]
  have hconnA : ¬ (resA.connectedTo = some 2) := by simp [resA]
  have hidB : resB.id = 2 := by simp [resB]
  simp [snapNeighbor, snapLoop, stAB, hidA, hconnA, hidB, hkeep]

theorem snapExC : snapNeighbor 2 pC stAB.residues = some resA := by
  have hkeep : snapKeep (dist3 pC resA.position) none := by
    simp only [snapKeep, dist3_pC_resA]
    norm_num [SNAP_THRESHOLD]
  have hidA : ¬ (resA.id = 2) := by simp [resA]
  have hconnA : ¬ (resA.connectedTo = some 2) := by simp [resA]
  have hidB : resB.id = 2 := by simp [resB]
  simp [snapNeighbor, snapLoop, stAB, hidA, hconnA, hidB, hkeep]

theorem snapSolo : snapNeighbor 2 p0 stSolo.residues = none := by
  have hidB : resB.id = 2 := by simp [resB]
  simp [snapNeighbor, snapLoop, stSolo, hidB]

theorem snappedPos_pC : snappedPos pC resA.position = resA.position := by
  have h0 : vsub pC resA.position = (⟨0, 0, 0⟩ : V3 ℝ) := by simp [vsub, pC, resA]
  have hlen : vlen (⟨0, 0, 0⟩ : V3 ℝ) = 0 := (vlen_zero_iff _).mpr rfl
  simp only [snappedPos, h0, vnormalize, hlen, if_pos]
  simp [vsmul, vadd, resA]

/-- Counterexample for C2 as frozen: dragging residue 2 onto a snap with
neighbor residue 1 leaves the dragged residue's `connectedTo` at `none`
(not `some 1`) and instead mutates the neighbor's `connectedTo` to `some 2` -
the bond is created from the neighbor toward the dragged residue, and a
residue other than the dragged one has its `connectedTo` changed. -/
theorem c2_counterexample :
    snapNeighbor 2 p0 stAB.residues = some resA ∧
    (stAB.residues.map fun r => (r.id, r.connectedTo)) = [(1, none), (2, none)] ∧
    ((dragRelease 2 p0 stAB).residues.map fun r => (r.id, r.connectedTo)) =
      [(1, some 2), (2, none)] ∧
    (none : Option ℕ) ≠ some 1 := by
  refine ⟨snapExA, by simp [stAB, resA, resB], ?_, by simp⟩
  rw [dragRelease_residues_some stAB 2 p0 resA snapExA (by simp [resA])]
  simp [stAB, resA, resB]

/-- Witness for C2 at the concrete snap of residue 2 onto residue 1. -/
theorem c2_bond_direction_witness :
    resA.id ≠ 2 ∧
    dragRelease 2 p0 stAB =
      connectResidues resA.id 2
        (updateResidue 2 ⟨none, some (snappedPos p0 resA.position), none, none⟩
          (updateResidue 2 ⟨none, some p0, none, none⟩ stAB)) :=
  ⟨(c2_bond_direction stAB 2 p0 resA snapExA).1,
   (c2_bond_direction stAB 2 p0 resA snapExA).2.1⟩

/-- Counterexample for C3 as frozen: releasing residue 2 exactly on residue
1's position selects residue 1 as neighbor (distance 0 < 5.0), but the
zero-guarded normalize leaves the snapped position on the neighbor itself, at
distance 0 - not exactly 3.8 - from it. -/
theorem c3_counterexample :
    snapNeighbor 2 pC stAB.residues = some resA ∧
    dist3 pC resA.position < SNAP_THRESHOLD ∧
    snappedPos pC resA.position = resA.position ∧
    dist3 (snappedPos pC resA.position) resA.position = 0 ∧
    (0 : ℝ) ≠ BOND_DISTANCE := by
  refine ⟨snapExC, ?_, snappedPos_pC, ?_, by norm_num [BOND_DISTANCE]⟩
  · rw [dist3_pC_resA]
    norm_num [SNAP_THRESHOLD]
  · rw [snappedPos_pC, dist3_self]

/-- Witness for C3: at the non-degenerate drop point the snapped position is
exactly the bond distance from the neighbor and the residues transform as
stated; in the no-candidate state the dragged residue just stays at the drop
point. -/
theorem c3_snap_spec_witness :
    dist3 (snappedPos p0 resA.position) resA.position = BOND_DISTANCE ∧
    (dragRelease 2 p0 stAB).residues = stAB.residues.map (fun r =>
      if r.id = 2 then { r with position := snappedPos p0 resA.position }
      else if r.id = resA.id then { r with connectedTo := some 2 } else r) ∧
    (dragRelease 2 p0 stSolo).residues = stSolo.residues.map (fun r =>
      if r.id = 2 then { r with position := p0 } else r) := by
  have h1 := (c3_snap_spec stAB 2 p0).1 resA snapExA
  have h2 := (c3_snap_spec stSolo 2 p0).2 snapSolo
  refine ⟨h1.2.2 ?_, h1.2.1, h2.2⟩
  intro hc
  have hx := congrArg V3.x hc
  simp only [p0, resA] at hx
  norm_num at hx

end Protein
